import Mathlib

set_option maxRecDepth 8000

/-!
Verification of the sliding-tile puzzle engine in
`src/DD-sandwich-puzzle-phase1_6.js`.

The logical engine state is embedded shallowly: `gridData` is the 2D cell
array (`0` = empty cell), `tiles` is the tile list (one record per nonzero
id), `emptyPos` mirrors the module-level empty-cell coordinate.  JavaScript
array reads `a[i]` are modeled with `List.getD`/`l[i]?` (out-of-range reads
yield the JS-`undefined`-like defaults used by the code paths modeled),
writes with `List.set`.  Tween/render code is modeled only where a claim is
about it (the hybrid shuffle pass), via explicit render coordinates.
-/

-- ============================================================================
-- GAME_CONFIG constants used by the modeled logic
-- ============================================================================

def GRID_OFFSET_X : Nat := 45

def GRID_OFFSET_Y : Nat := 180

def TILE_SIZE : Nat := 120

def TILE_SPACING : Nat := 10

def MAX_MOVES_DEFAULT : Nat := 50

def OPTIMAL_MOVES_DEFAULT : Nat := 20

/-- `applyRecipeConfig` resolves a recipe field with `recipe.field || default`:
a missing (`none`) or zero (JS falsy) value falls back to the default. -/
def resolveConfigNat (fieldValue : Option Nat) (defaultValue : Nat) : Nat :=
  match fieldValue with
  | none => defaultValue
  | some v => if v = 0 then defaultValue else v

-- ============================================================================
-- Data model: tiles and board (logical state only)
-- ============================================================================

/-- A tile record `{id, currentRow, currentCol}` (render-only fields of the
JS tile object are modeled separately for the hybrid-shuffle claim). -/
structure Tile where
  id : Nat
  currentRow : Nat
  currentCol : Nat
deriving DecidableEq

/-- The logical board state: `gridData` (2D array of ids, 0 = empty),
the `tiles` array, and the module-level `emptyPos` coordinate. -/
structure Board where
  gridData : List (List Nat)
  tiles : List Tile
  emptyPos : Nat × Nat
deriving DecidableEq

/-- Read `gridData[row][col]` (JS out-of-range reads never happen on the
modeled paths; the defaults 0/[] are only placeholders). -/
def getCell (g : List (List Nat)) (row col : Nat) : Nat :=
  (g.getD row []).getD col 0

/-- Write `gridData[row][col] = v`. -/
def setCell (g : List (List Nat)) (row col : Nat) (v : Nat) : List (List Nat) :=
  g.set row ((g.getD row []).set col v)

-- ============================================================================
-- GridManager.createGrid (recipe mode) / ShuffleSystem.resetGridToSolved
-- ============================================================================

/-- The grid fill loop shared verbatim by `GridManager.createGrid` and
`ShuffleSystem.resetGridToSolved` (recipe mode): lay out the recipe
sequence row-major, remaining cells 0. -/
def createGridData (gridSize : Nat) (seq : List Nat) : List (List Nat) :=
  (List.range gridSize).map (fun row =>
    (List.range gridSize).map (fun col =>
      if row * gridSize + col < seq.length
      then seq.getD (row * gridSize + col) 0 else 0))

/-- The empty-cell scan shared by `createGrid` and `resetGridToSolved`:
`for (row = gridSize-1; row >= 0; row--) for (col = gridSize-1; col >= 0;
col--) if (gridData[row][col] === 0) { emptyPos = {row, col}; break; }`.
The `break` exits only the inner column loop, so the outer row loop keeps
running; this is modeled exactly by the fold below.  `e0` is the value
`emptyPos` held before the scan (it survives only if no cell is 0). -/
def scanEmptyPos (gridSize : Nat) (g : List (List Nat)) (e0 : Nat × Nat) :
    Nat × Nat :=
  (List.range gridSize).reverse.foldl (fun e row =>
    match (List.range gridSize).reverse.find? (fun col => getCell g row col == 0) with
    | some col => (row, col)
    | none => e) e0

/-- Tile records created by the fill loop of `createGrid`: one per nonzero
cell, in row-major order. -/
def createTiles (gridSize : Nat) (g : List (List Nat)) : List Tile :=
  ((List.range gridSize).map (fun row =>
    (List.range gridSize).filterMap (fun col =>
      if getCell g row col ≠ 0
      then some (⟨getCell g row col, row, col⟩ : Tile) else none))).flatten

/-- `GridManager.createGrid` in recipe mode.  `e0` is the prior value of the
module-level `emptyPos` (initially `{row: 2, col: 2}`). -/
def createGrid (e0 : Nat × Nat) (gridSize : Nat) (seq : List Nat) : Board :=
  let g := createGridData gridSize seq
  { gridData := g
    tiles := createTiles gridSize g
    emptyPos := scanEmptyPos gridSize g e0 }

/-- The tile-relocation scan of `resetGridToSolved`: forward loops over
rows/cols with an inner-only `break`, so the final hit is the leftmost
match of the last row containing the id (unique cell for catalog ids). -/
def findTilePos (gridSize : Nat) (g : List (List Nat)) (id : Nat) :
    Option (Nat × Nat) :=
  (List.range gridSize).foldl (fun acc row =>
    match (List.range gridSize).find? (fun col => getCell g row col == id) with
    | some col => some (row, col)
    | none => acc) none

/-- `ShuffleSystem.resetGridToSolved` (recipe mode): rebuild the solved grid,
rescan `emptyPos`, and snap every tile to the cell holding its id. -/
def resetGridToSolved (b : Board) (gridSize : Nat) (seq : List Nat) : Board :=
  let g := createGridData gridSize seq
  let e := scanEmptyPos gridSize g b.emptyPos
  let tiles := b.tiles.map (fun t =>
    match findTilePos gridSize g t.id with
    | some rc => { t with currentRow := rc.1, currentCol := rc.2 }
    | none => t)
  { gridData := g, tiles := tiles, emptyPos := e }

-- ============================================================================
-- GridManager.canTileMove / moveTile / onTileClick
-- ============================================================================

/-- `GridManager.canTileMove`: true iff the tile is exactly one orthogonal
step from `emptyPos`. -/
def canTileMove (tile : Tile) (emptyPos : Nat × Nat) : Bool :=
  let rowDiff := ((tile.currentRow : Int) - (emptyPos.1 : Int)).natAbs
  let colDiff := ((tile.currentCol : Int) - (emptyPos.2 : Int)).natAbs
  (rowDiff == 1 && colDiff == 0) || (rowDiff == 0 && colDiff == 1)

/-- The logical state update of `GridManager.moveTile`, addressing the moved
tile by its index in the `tiles` array (the JS code mutates the tile object
by reference).  Note the source performs NO legality check here: it zeroes
the tile's cell, writes the tile id into the empty cell, and swaps the
recorded positions, unconditionally. -/
def moveTile (b : Board) (i : Nat) : Board :=
  match b.tiles[i]? with
  | none => b
  | some tile =>
    let g1 := setCell b.gridData tile.currentRow tile.currentCol 0
    let g2 := setCell g1 b.emptyPos.1 b.emptyPos.2 tile.id
    let movedTile : Tile :=
      { tile with currentRow := b.emptyPos.1, currentCol := b.emptyPos.2 }
    { gridData := g2
      tiles := b.tiles.set i movedTile
      emptyPos := (tile.currentRow, tile.currentCol) }

/-- `GridManager.onTileClick`: the player entry point.  It returns without
touching the board while animating/shuffling/won/failed, or when the clicked
tile fails `canTileMove`; otherwise it calls `moveTile`. -/
def onTileClick (b : Board) (isAnimating isShuffling isWon hasFailed : Bool)
    (i : Nat) : Board :=
  if isAnimating || isShuffling || isWon || hasFailed then b
  else
    match b.tiles[i]? with
    | none => b
    | some tile => if canTileMove tile b.emptyPos then moveTile b i else b

-- ============================================================================
-- GridManager.checkWinCondition (recipe mode) and the post-move evaluator
-- ============================================================================

/-- `GridManager.checkWinCondition` in recipe mode: flatten `gridData`
row-major and require `flatGrid[index] === targetId` for every
`(index, targetId)` of `targetSequence` (cells past `targetSequence.length`
are never compared).  Returns whether `onPuzzleSolved` fires (which sets
`isWon` and reports the puzzle as won). -/
def checkWinConditionRecipe (gridData : List (List Nat))
    (targetSequence : List Nat) : Bool :=
  let flatGrid := gridData.flatten
  (targetSequence.enum).all (fun p => flatGrid[p.1]? == some p.2)

/-- The observable outcome of the `onComplete` branch of `moveTile` for a
player move. -/
structure MoveOutcome where
  moveCount : Nat
  isWon : Bool
  hasFailed : Bool
  failEventFired : Bool
  winEventFired : Bool
deriving DecidableEq

/-- The player-move tail of `GridManager.moveTile`: increment `moveCount`;
if `moveCount >= MAX_MOVES && !isWon` run `triggerFailState` (sets
`hasFailed`, fires `onPuzzleFail`) and return, skipping the win check;
otherwise run `checkWinCondition` (recipe mode). -/
def afterPlayerMove (gridData : List (List Nat)) (seq : List Nat)
    (maxMoves moveCount0 : Nat) (isWon0 : Bool) : MoveOutcome :=
  let mc := moveCount0 + 1
  if maxMoves ≤ mc ∧ isWon0 = false then
    { moveCount := mc, isWon := isWon0, hasFailed := true
      failEventFired := true, winEventFired := false }
  else
    let solved := checkWinConditionRecipe gridData seq
    { moveCount := mc, isWon := isWon0 || solved, hasFailed := false
      failEventFired := false, winEventFired := solved }

/-- `calculateRating`: star rating from `moveCount` and the effective
`GAME_CONFIG.OPTIMAL_MOVES`.  The JS `optimal * 1.5` is exact rational
arithmetic for the integer inputs the game produces, modeled in `ℚ`. -/
def calculateRating (moveCount optimal : Nat) : String :=
  if moveCount ≤ optimal then "⭐⭐⭐"
  else if (moveCount : ℚ) ≤ (optimal : ℚ) * 1.5 then "⭐⭐"
  else if moveCount ≤ optimal * 2 then "⭐"
  else "💀"

-- ============================================================================
-- Claim theorems C1 - C3
-- ============================================================================

/-- Claim C1: in recipe mode the win check compares only the first
`targetSequence.length` positions of the row-major flattened grid.  For
recipe `leafy_stack` (`targetSequence = [1,2,3,8]`, `gridSize = 3`) any
board whose first 4 flattened cells are `[1,2,3,8]` is reported won no
matter what the remaining five cells `a b c d e` hold, and a board whose
first 4 flattened cells are `[1,2,8,3]` is not. -/
theorem C1_win_check_prefix_only (a b c d e : Nat) :
    checkWinConditionRecipe [[1, 2, 3], [8, a, b], [c, d, e]] [1, 2, 3, 8] = true ∧
    checkWinConditionRecipe [[1, 2, 8], [3, a, b], [c, d, e]] [1, 2, 3, 8] = false := by
  constructor <;> rfl

/-- Claim C2: after a player move the fail check runs before the win check.
With `maxMoves = 50`: a move raising `moveCount` to any value ≥ 50 while not
already won sets `hasFailed`, fires the failure event, and leaves `isWon`
false even if the board is solved (win check skipped); a move raising
`moveCount` to 49 or below does not fail. -/
theorem C2_fail_check_first (g : List (List Nat)) (seq : List Nat) (mc : Nat) :
    (50 ≤ mc + 1 →
      (afterPlayerMove g seq 50 mc false).hasFailed = true ∧
      (afterPlayerMove g seq 50 mc false).failEventFired = true ∧
      (afterPlayerMove g seq 50 mc false).isWon = false) ∧
    (mc + 1 < 50 →
      (afterPlayerMove g seq 50 mc false).hasFailed = false ∧
      (afterPlayerMove g seq 50 mc false).failEventFired = false) := by
  unfold afterPlayerMove
  constructor
  · intro h
    rw [if_pos ⟨h, rfl⟩]
    exact ⟨rfl, rfl, rfl⟩
  · intro h
    rw [if_neg (by omega)]
    exact ⟨rfl, rfl⟩

/-- Witness for C2 at the claim's boundary: a 50th move on an unsolved board
fails (and fires the event), a 49th does not. -/
theorem C2_fail_check_first_witness :
    (50 ≤ 49 + 1) ∧
    (afterPlayerMove [[2, 1, 3], [8, 0, 0], [0, 0, 0]] [1, 2, 3, 8] 50 49 false).hasFailed = true ∧
    (afterPlayerMove [[2, 1, 3], [8, 0, 0], [0, 0, 0]] [1, 2, 3, 8] 50 49 false).failEventFired = true ∧
    (48 + 1 < 50) ∧
    (afterPlayerMove [[2, 1, 3], [8, 0, 0], [0, 0, 0]] [1, 2, 3, 8] 50 48 false).hasFailed = false :=
  ⟨by decide,
   ((C2_fail_check_first [[2, 1, 3], [8, 0, 0], [0, 0, 0]] [1, 2, 3, 8] 49).1 (by decide)).1,
   ((C2_fail_check_first [[2, 1, 3], [8, 0, 0], [0, 0, 0]] [1, 2, 3, 8] 49).1 (by decide)).2.1,
   by decide,
   ((C2_fail_check_first [[2, 1, 3], [8, 0, 0], [0, 0, 0]] [1, 2, 3, 8] 48).2 (by decide)).1⟩

/-- Claim C3: the star rating uses inclusive thresholds at `optimal`,
`optimal * 1.5` and `optimal * 2` (shown at the exact boundaries for any
positive `optimal`, with the `*1.5` boundary exhibited at `3k ≤ (2k)*1.5`),
and the claimed concrete values for `optimalMoves = 20`. -/
theorem C3_rating_thresholds (opt : Nat) (h : 0 < opt) :
    calculateRating opt opt = "⭐⭐⭐" ∧
    calculateRating (3 * opt) (2 * opt) = "⭐⭐" ∧
    calculateRating (2 * opt) opt = "⭐" ∧
    calculateRating (2 * opt + 1) opt = "💀" ∧
    calculateRating 20 20 = "⭐⭐⭐" ∧
    calculateRating 30 20 = "⭐⭐" ∧
    calculateRating 31 20 = "⭐" ∧
    calculateRating 41 20 = "💀" := by
  refine ⟨?_, ?_, ?_, ?_, ?_, ?_, ?_, ?_⟩
  · unfold calculateRating
    rw [if_pos le_rfl]
  · have h1 : ¬ (3 * opt ≤ 2 * opt) := by omega
    have h2 : ((3 * opt : Nat) : ℚ) ≤ ((2 * opt : Nat) : ℚ) * 1.5 := by
      push_cast
      nlinarith
    unfold calculateRating
    rw [if_neg h1, if_pos h2]
  · have hq : (1 : ℚ) ≤ (opt : ℚ) := by exact_mod_cast h
    have h1 : ¬ (2 * opt ≤ opt) := by omega
    have h2 : ¬ (((2 * opt : Nat) : ℚ) ≤ ((opt : Nat) : ℚ) * 1.5) := by
      push_cast
      intro hc
      nlinarith
    have h3 : 2 * opt ≤ opt * 2 := by omega
    unfold calculateRating
    rw [if_neg h1, if_neg h2, if_pos h3]
  · have hq : (0 : ℚ) ≤ (opt : ℚ) := by positivity
    have h1 : ¬ (2 * opt + 1 ≤ opt) := by omega
    have h2 : ¬ (((2 * opt + 1 : Nat) : ℚ) ≤ ((opt : Nat) : ℚ) * 1.5) := by
      push_cast
      intro hc
      nlinarith
    have h3 : ¬ (2 * opt + 1 ≤ opt * 2) := by omega
    unfold calculateRating
    rw [if_neg h1, if_neg h2, if_neg h3]
  · norm_num [calculateRating]
  · norm_num [calculateRating]
  · norm_num [calculateRating]
  · norm_num [calculateRating]

/-- Witness for C3 at `optimal = 20`. -/
theorem C3_rating_thresholds_witness :
    (0 < 20) ∧ calculateRating 20 20 = "⭐⭐⭐" ∧
    calculateRating 60 40 = "⭐⭐" ∧ calculateRating 40 20 = "⭐" ∧
    calculateRating 41 20 = "💀" :=
  ⟨by decide,
   (C3_rating_thresholds 20 (by decide)).1,
   (C3_rating_thresholds 20 (by decide)).2.1,
   (C3_rating_thresholds 20 (by decide)).2.2.1,
   (C3_rating_thresholds 20 (by decide)).2.2.2.1⟩

-- ============================================================================
-- Claim theorems C4 - C5
-- ============================================================================

/-- The board produced by the initial `createGrid` call for the default
recipe `leafy_stack` (`sequence = [1,2,3,8]`, `gridSize = 3`), starting from
the module-level initial `emptyPos = {row: 2, col: 2}`. -/
def leafyInitBoard : Board := createGrid (2, 2) 3 [1, 2, 3, 8]

/-- Counterexample to claim C4 as stated: on the initial `leafy_stack`
board the tile at index 0 (id 1, at row 0, col 0) is NOT one orthogonal
step from the empty cell, yet `moveTile` does not reject the call — it
silently applies the move and changes the grid. -/
theorem C4_counterexample :
    canTileMove ⟨1, 0, 0⟩ leafyInitBoard.emptyPos = false ∧
    (moveTile leafyInitBoard 0).gridData ≠ leafyInitBoard.gridData := by
  decide

/-- Claim C4 (amended): `moveTile` itself performs no adjacency check and
never rejects a call — it unconditionally applies the move (second
conjunct: the empty cell always moves to the tile's former position).
Rejection of non-adjacent tiles happens only in the caller `onTileClick`,
which checks `canTileMove` and leaves the board unchanged when it fails
(first conjunct). -/
theorem C4_caller_guards_illegal_moves (b : Board)
    (ia is iw hf : Bool) (i : Nat) (t : Tile)
    (ht : b.tiles[i]? = some t)
    (hleg : canTileMove t b.emptyPos = false) :
    onTileClick b ia is iw hf i = b ∧
    (moveTile b i).emptyPos = (t.currentRow, t.currentCol) := by
  constructor
  · unfold onTileClick
    split
    · rfl
    · rw [ht]
      simp [hleg]
  · unfold moveTile
    rw [ht]

/-- Witness for C4 (amended): clicking the non-adjacent tile id 1 on the
initial `leafy_stack` board is ignored, while a direct `moveTile` call on
it relocates the empty cell to (0,0). -/
theorem C4_caller_guards_illegal_moves_witness :
    onTileClick leafyInitBoard false false false false 0 = leafyInitBoard ∧
    (moveTile leafyInitBoard 0).emptyPos = (0, 0) :=
  C4_caller_guards_illegal_moves leafyInitBoard false false false false 0
    ⟨1, 0, 0⟩ (by decide) (by decide)

/-- Counterexample to claim C5 as stated: after initialization for
`leafy_stack` the empty cell is at row 1, col 2 — not row 2, col 2.  The
scan's `break` exits only the inner column loop, so rows keep being
scanned upward and `emptyPos` is overwritten by earlier rows' zeros. -/
theorem C5_counterexample :
    leafyInitBoard.emptyPos = (1, 2) ∧ ((1, 2) : Nat × Nat) ≠ (2, 2) := by
  decide

/-- Claim C5 (amended): the scan leaves `emptyPosition` at the rightmost
0-valued cell of the TOPMOST row containing a 0 (the inner `break` does not
end the outer loop).  For `leafy_stack` that is row 1, col 2, whatever
`emptyPos` held before — both at `createGrid` initialization and at every
`resetGridToSolved`. -/
theorem C5_empty_scan_topmost_row (e0 : Nat × Nat) (b : Board) :
    scanEmptyPos 3 (createGridData 3 [1, 2, 3, 8]) e0 = (1, 2) ∧
    (createGrid e0 3 [1, 2, 3, 8]).emptyPos = (1, 2) ∧
    (resetGridToSolved b 3 [1, 2, 3, 8]).emptyPos = (1, 2) := by
  exact ⟨rfl, rfl, rfl⟩

-- ============================================================================
-- List and multiset helper lemmas for the board invariants
-- ============================================================================

theorem getD_set_self {α : Type} (l : List α) (i : Nat) (a d : α)
    (h : i < l.length) : (l.set i a).getD i d = a := by
  rw [List.getD_eq_getElem?_getD, List.getElem?_set_eq_of_lt a h]
  rfl

theorem getD_set_ne {α : Type} (l : List α) {i j : Nat} (a d : α)
    (h : i ≠ j) : (l.set i a).getD j d = l.getD j d := by
  rw [List.getD_eq_getElem?_getD, List.getD_eq_getElem?_getD,
    List.getElem?_set_ne h]

theorem set_getElem_self {α : Type} (l : List α) (i : Nat) (a : α)
    (h : l[i]? = some a) : l.set i a = l := by
  apply List.ext_getElem?
  intro j
  by_cases hj : i = j
  · subst hj
    obtain ⟨hlt, _⟩ := List.getElem?_eq_some_iff.mp h
    rw [List.getElem?_set_eq_of_lt a hlt, h]
  · exact List.getElem?_set_ne hj

theorem getD_mem_of_lt {α : Type} (l : List α) (i : Nat) (d : α)
    (h : i < l.length) : l.getD i d ∈ l := by
  rw [List.getD_eq_getElem l d h]
  exact List.getElem_mem h

/-- Replacing an element: the multiset of the updated list plus the old
element equals the multiset of the original list plus the new element. -/
theorem coe_set_add {α : Type} [DecidableEq α] (l : List α) (i : Nat)
    (a d : α) (h : i < l.length) :
    ((l.set i a : List α) : Multiset α) + {l.getD i d} =
      (l : Multiset α) + {a} := by
  have hd : l.drop i = l.getD i d :: l.drop (i + 1) := by
    rw [List.getD_eq_getElem l d h]
    exact List.drop_eq_getElem_cons h
  have hl : (l : Multiset α) =
      ↑(l.take i) + (l.getD i d ::ₘ ↑(l.drop (i + 1))) := by
    conv_lhs => rw [← List.take_append_drop i l, hd]
    rw [Multiset.cons_coe, Multiset.coe_add]
  have hs : ((l.set i a : List α) : Multiset α) =
      ↑(l.take i) + (a ::ₘ ↑(l.drop (i + 1))) := by
    rw [List.set_eq_take_cons_drop a h, Multiset.cons_coe, Multiset.coe_add]
  rw [hl, hs]
  simp only [← Multiset.singleton_add]
  abel

/-- Replacing a row: multiset version at the level of the flattened grid. -/
theorem coe_flatten_set (g : List (List Nat)) (r : Nat) (row : List Nat)
    (h : r < g.length) :
    (((g.set r row).flatten : List Nat) : Multiset Nat) + ↑(g.getD r []) =
      ((g.flatten : List Nat) : Multiset Nat) + ↑row := by
  have hd : g.drop r = g.getD r [] :: g.drop (r + 1) := by
    rw [List.getD_eq_getElem g [] h]
    exact List.drop_eq_getElem_cons h
  have hg : ((g.flatten : List Nat) : Multiset Nat) =
      ↑((g.take r).flatten) + (↑(g.getD r []) + ↑((g.drop (r + 1)).flatten)) := by
    conv_lhs => rw [← List.take_append_drop r g, hd]
    rw [List.flatten_append, List.flatten_cons, Multiset.coe_add, Multiset.coe_add]
  have hs : (((g.set r row).flatten : List Nat) : Multiset Nat) =
      ↑((g.take r).flatten) + (↑row + ↑((g.drop (r + 1)).flatten)) := by
    rw [List.set_eq_take_cons_drop row h, List.flatten_append, List.flatten_cons,
      Multiset.coe_add, Multiset.coe_add]
  rw [hg, hs]
  abel

/-- `setCell` swaps one cell value in the flattened-grid multiset. -/
theorem coe_flatten_setCell (g : List (List Nat)) (r c v : Nat)
    (hr : r < g.length) (hc : c < (g.getD r []).length) :
    (((setCell g r c v).flatten : List Nat) : Multiset Nat) + {getCell g r c} =
      ((g.flatten : List Nat) : Multiset Nat) + {v} := by
  unfold setCell getCell
  have h1 := coe_flatten_set g r ((g.getD r []).set c v) hr
  have h2 := coe_set_add (g.getD r []) c v 0 hc
  have key :
      ((((g.set r ((g.getD r []).set c v)).flatten : List Nat) : Multiset Nat) +
          {(g.getD r []).getD c 0}) + ↑(g.getD r []) =
        (((g.flatten : List Nat) : Multiset Nat) + {v}) + ↑(g.getD r []) := by
    calc ((((g.set r ((g.getD r []).set c v)).flatten : List Nat) : Multiset Nat) +
            {(g.getD r []).getD c 0}) + ↑(g.getD r []) =
        ((((g.set r ((g.getD r []).set c v)).flatten : List Nat) : Multiset Nat) +
            ↑(g.getD r [])) + {(g.getD r []).getD c 0} := by abel
      _ = (((g.flatten : List Nat) : Multiset Nat) + ↑((g.getD r []).set c v)) +
            {(g.getD r []).getD c 0} := by rw [h1]
      _ = ((g.flatten : List Nat) : Multiset Nat) +
            (↑((g.getD r []).set c v) + {(g.getD r []).getD c 0}) := by abel
      _ = ((g.flatten : List Nat) : Multiset Nat) + (↑(g.getD r []) + {v}) := by rw [h2]
      _ = (((g.flatten : List Nat) : Multiset Nat) + {v}) + ↑(g.getD r []) := by abel
  exact add_right_cancel key

theorem getCell_setCell_self (g : List (List Nat)) (r c v : Nat)
    (hr : r < g.length) (hc : c < (g.getD r []).length) :
    getCell (setCell g r c v) r c = v := by
  unfold getCell setCell
  rw [getD_set_self g r _ [] hr]
  exact getD_set_self _ c v 0 hc

theorem getCell_setCell_ne (g : List (List Nat)) (r c r' c' v : Nat)
    (hne : (r, c) ≠ (r', c')) :
    getCell (setCell g r c v) r' c' = getCell g r' c' := by
  unfold getCell setCell
  by_cases hr : r = r'
  · subst hr
    have hc : c ≠ c' := fun h => hne (by rw [h])
    by_cases hlen : r < g.length
    · rw [getD_set_self g r _ [] hlen]
      exact getD_set_ne _ v 0 hc
    · rw [List.set_eq_of_length_le (by omega)]
  · rw [getD_set_ne g _ [] hr]

theorem length_setCell (g : List (List Nat)) (r c v : Nat) :
    (setCell g r c v).length = g.length := List.length_set g r _

theorem row_len_setCell (g : List (List Nat)) (n r c v : Nat)
    (hrow : ∀ row ∈ g, row.length = n) :
    ∀ row ∈ setCell g r c v, row.length = n := by
  intro row hmem
  by_cases hr : r < g.length
  · rcases List.mem_or_eq_of_mem_set hmem with h | h
    · exact hrow _ h
    · subst h
      rw [List.length_set]
      exact hrow _ (getD_mem_of_lt g r [] hr)
  · unfold setCell at hmem
    rw [List.set_eq_of_length_le (by omega)] at hmem
    exact hrow _ hmem

theorem getD_row_len (g : List (List Nat)) (n r : Nat)
    (hlen : g.length = n) (hrow : ∀ row ∈ g, row.length = n) (hr : r < n) :
    (g.getD r []).length = n :=
  hrow _ (getD_mem_of_lt g r [] (by omega))

theorem getCell_ne_bounds (g : List (List Nat)) (n : Nat) (hlen : g.length = n)
    (hrow : ∀ row ∈ g, row.length = n) (r c : Nat)
    (h : getCell g r c ≠ 0) : r < n ∧ c < n := by
  unfold getCell at h
  by_cases hr : r < g.length
  · have hrl : (g.getD r []).length = n := hrow _ (getD_mem_of_lt g r [] hr)
    refine ⟨by omega, ?_⟩
    by_contra hc
    apply h
    rw [List.getD_eq_getElem?_getD, List.getElem?_eq_none (by omega)]
    rfl
  · exfalso
    apply h
    rw [List.getD_eq_getElem?_getD (l := g), List.getElem?_eq_none (by omega)]
    rfl

-- ============================================================================
-- Board invariant and its preservation by moveTile
-- ============================================================================

/-- The board invariant: well-shaped `n x n` grid, in-range `emptyPos`
holding 0, every tile record consistent with its grid cell, nonzero and
pairwise-distinct tile ids, and a fixed multiset `M0` of cell values. -/
structure BoardInv (n : Nat) (M0 : Multiset Nat) (b : Board) : Prop where
  grid_len : b.gridData.length = n
  row_len : ∀ row ∈ b.gridData, row.length = n
  empty_row_lt : b.emptyPos.1 < n
  empty_col_lt : b.emptyPos.2 < n
  empty_zero : getCell b.gridData b.emptyPos.1 b.emptyPos.2 = 0
  tiles_pos : ∀ (i : Nat) (t : Tile), b.tiles[i]? = some t →
    getCell b.gridData t.currentRow t.currentCol = t.id
  tiles_nz : ∀ (i : Nat) (t : Tile), b.tiles[i]? = some t → t.id ≠ 0
  ids_nodup : (b.tiles.map Tile.id).Nodup
  cells_multiset : ((b.gridData.flatten : List Nat) : Multiset Nat) = M0

/-- `moveTile` (on any valid tile index, legal or not) preserves the board
invariant: it swaps the 0 at `emptyPos` with the tile id at the tile's
cell, so shape, the single-0-at-`emptyPos` property, tile/grid consistency
and the cell multiset all carry over. -/
theorem boardInv_moveTile {n : Nat} {M0 : Multiset Nat} {b : Board}
    (inv : BoardInv n M0 b) (i : Nat) : BoardInv n M0 (moveTile b i) := by
  cases hti : b.tiles[i]? with
  | none =>
    unfold moveTile
    rw [hti]
    exact inv
  | some t =>
    have hilt : i < b.tiles.length := (List.getElem?_eq_some_iff.mp hti).1
    have hpid : getCell b.gridData t.currentRow t.currentCol = t.id :=
      inv.tiles_pos i t hti
    have hnz : t.id ≠ 0 := inv.tiles_nz i t hti
    obtain ⟨hp1, hp2⟩ : t.currentRow < n ∧ t.currentCol < n :=
      getCell_ne_bounds b.gridData n inv.grid_len inv.row_len _ _
        (by rw [hpid]; exact hnz)
    have he1 : b.emptyPos.1 < n := inv.empty_row_lt
    have he2 : b.emptyPos.2 < n := inv.empty_col_lt
    have hpe : (t.currentRow, t.currentCol) ≠ (b.emptyPos.1, b.emptyPos.2) := by
      intro heq
      rw [Prod.mk.injEq] at heq
      apply hnz
      rw [← hpid, heq.1, heq.2]
      exact inv.empty_zero
    have hglen : b.gridData.length = n := inv.grid_len
    have hrow_p : (b.gridData.getD t.currentRow []).length = n :=
      getD_row_len b.gridData n _ hglen inv.row_len hp1
    have hrow_e : (b.gridData.getD b.emptyPos.1 []).length = n :=
      getD_row_len b.gridData n _ hglen inv.row_len inv.empty_row_lt
    set g1 := setCell b.gridData t.currentRow t.currentCol 0 with hg1
    have hg1len : g1.length = n := by rw [hg1, length_setCell, hglen]
    have hg1row : ∀ row ∈ g1, row.length = n :=
      row_len_setCell b.gridData n _ _ _ inv.row_len
    have hrow_e1 : (g1.getD b.emptyPos.1 []).length = n :=
      getD_row_len g1 n _ hg1len hg1row inv.empty_row_lt
    have hg1e : getCell g1 b.emptyPos.1 b.emptyPos.2 =
        getCell b.gridData b.emptyPos.1 b.emptyPos.2 :=
      getCell_setCell_ne b.gridData _ _ _ _ 0 hpe
    set g2 := setCell g1 b.emptyPos.1 b.emptyPos.2 t.id with hg2
    have hmv : moveTile b i =
        { gridData := g2
          tiles := b.tiles.set i
            { t with currentRow := b.emptyPos.1, currentCol := b.emptyPos.2 }
          emptyPos := (t.currentRow, t.currentCol) } := by
      unfold moveTile
      rw [hti]
    rw [hmv]
    constructor
    case grid_len => rw [hg2, length_setCell, hg1len]
    case row_len => exact row_len_setCell g1 n _ _ _ hg1row
    case empty_row_lt => exact hp1
    case empty_col_lt => exact hp2
    case empty_zero =>
      show getCell g2 t.currentRow t.currentCol = 0
      rw [hg2, getCell_setCell_ne g1 _ _ _ _ _ (Ne.symm hpe)]
      rw [hg1, getCell_setCell_self b.gridData _ _ 0 (by omega) (by omega)]
    case tiles_pos =>
      intro j u hju
      by_cases hj : j = i
      · subst hj
        rw [List.getElem?_set_eq_of_lt _ hilt] at hju
        cases hju
        show getCell g2 b.emptyPos.1 b.emptyPos.2 = t.id
        rw [hg2]
        exact getCell_setCell_self g1 _ _ t.id (by omega) (by omega)
      · rw [List.getElem?_set_ne (fun h => hj h.symm)] at hju
        have hold : getCell b.gridData u.currentRow u.currentCol = u.id :=
          inv.tiles_pos j u hju
        have hunz : u.id ≠ 0 := inv.tiles_nz j u hju
        have hjlt : j < b.tiles.length := (List.getElem?_eq_some_iff.mp hju).1
        have hne_e : (b.emptyPos.1, b.emptyPos.2) ≠ (u.currentRow, u.currentCol) := by
          intro heq
          apply hunz
          rw [← hold, Prod.mk.injEq] at *
          rw [← heq.1, ← heq.2]
          exact inv.empty_zero
        have hne_p : (t.currentRow, t.currentCol) ≠ (u.currentRow, u.currentCol) := by
          intro heq
          rw [Prod.mk.injEq] at heq
          have hid : u.id = t.id := by rw [← hold, ← hpid, heq.1, heq.2]
          have h1 : (b.tiles.map Tile.id)[i]? = some t.id := by
            rw [List.getElem?_map, hti]
            rfl
          have h2 : (b.tiles.map Tile.id)[j]? = some u.id := by
            rw [List.getElem?_map, hju]
            rfl
          apply hj
          apply List.getElem?_inj (by rw [List.length_map]; exact hjlt) inv.ids_nodup
          rw [h1, h2, hid]
        show getCell g2 u.currentRow u.currentCol = u.id
        rw [hg2, getCell_setCell_ne g1 _ _ _ _ _ hne_e, hg1,
          getCell_setCell_ne b.gridData _ _ _ _ _ hne_p]
        exact hold
    case tiles_nz =>
      intro j u hju
      by_cases hj : j = i
      · subst hj
        rw [List.getElem?_set_eq_of_lt _ hilt] at hju
        cases hju
        exact hnz
      · rw [List.getElem?_set_ne (fun h => hj h.symm)] at hju
        exact inv.tiles_nz j u hju
    case ids_nodup =>
      show ((b.tiles.set i _).map Tile.id).Nodup
      rw [List.map_set]
      have : (b.tiles.map Tile.id)[i]? = some t.id := by
        rw [List.getElem?_map, hti]
        rfl
      rw [set_getElem_self _ i t.id this]
      exact inv.ids_nodup
    case cells_multiset =>
      show ((g2.flatten : List Nat) : Multiset Nat) = M0
      have h2 : ((g2.flatten : List Nat) : Multiset Nat) +
          {getCell g1 b.emptyPos.1 b.emptyPos.2} =
          ((g1.flatten : List Nat) : Multiset Nat) + {t.id} := by
        rw [hg2]
        exact coe_flatten_setCell g1 _ _ t.id (by omega) (by omega)
      have h1 : ((g1.flatten : List Nat) : Multiset Nat) +
          {getCell b.gridData t.currentRow t.currentCol} =
          ((b.gridData.flatten : List Nat) : Multiset Nat) + {0} := by
        rw [hg1]
        exact coe_flatten_setCell b.gridData _ _ 0 (by omega) (by omega)
      rw [hg1e, inv.empty_zero] at h2
      rw [hpid] at h1
      have : ((g2.flatten : List Nat) : Multiset Nat) + {0} =
          ((b.gridData.flatten : List Nat) : Multiset Nat) + {0} := by
        rw [h2, h1]
      have := add_right_cancel this
      rw [this]
      exact inv.cells_multiset

-- ============================================================================
-- Initialization lemmas: flattened layout, empty-cell scan, created tiles
-- ============================================================================

theorem map_getD_range {α : Type} (l : List α) (d : α) :
    (List.range l.length).map (fun k => l.getD k d) = l := by
  apply List.ext_getElem
  · simp
  · intro k h1 h2
    rw [List.getElem_map, List.getElem_range]
    exact List.getD_eq_getElem l d h2

theorem map_getD_range_comp {α β : Type} (l : List α) (d : α) (F : α → β) :
    (List.range l.length).map (fun i => F (l.getD i d)) = l.map F := by
  conv_rhs => rw [← map_getD_range l d]
  rw [List.map_map]
  rfl

theorem flatten_map_range {α : Type} (n : Nat) (f : Nat → α) (m : Nat) :
    ((List.range m).map (fun r =>
      (List.range n).map (fun c => f (r * n + c)))).flatten =
      (List.range (m * n)).map f := by
  induction m with
  | zero => simp
  | succ m ih =>
    rw [List.range_succ, List.map_append, List.flatten_append, ih]
    have h1 : (m + 1) * n = m * n + n := by ring
    rw [h1, List.range_add, List.map_append, List.map_map]
    congr 1
    simp [Function.comp]

theorem flatten_createGridData (n : Nat) (seq : List Nat)
    (h : seq.length ≤ n * n) :
    (createGridData n seq).flatten =
      seq ++ List.replicate (n * n - seq.length) 0 := by
  have hf := flatten_map_range n
    (fun k => if k < seq.length then seq.getD k 0 else 0) n
  rw [show (createGridData n seq).flatten =
      (List.range (n * n)).map
        (fun k => if k < seq.length then seq.getD k 0 else 0) from hf]
  conv_lhs => rw [show n * n = seq.length + (n * n - seq.length) by omega,
    List.range_add, List.map_append]
  congr 1
  · conv_rhs => rw [← map_getD_range seq 0]
    apply List.map_congr_left
    intro k hk
    rw [if_pos (List.mem_range.mp hk)]
  · rw [List.map_map]
    rw [List.map_congr_left (g := fun _ => (0 : Nat)) ?_]
    · rw [show (fun _ => (0 : Nat)) = Function.const Nat 0 from rfl,
        List.map_const, List.length_range]
    · intro k hk
      show (if seq.length + k < seq.length
        then seq.getD (seq.length + k) 0 else 0) = 0
      rw [if_neg (by omega)]

theorem getCell_createGridData (n : Nat) (seq : List Nat) (r c : Nat)
    (hr : r < n) (hc : c < n) :
    getCell (createGridData n seq) r c =
      if r * n + c < seq.length then seq.getD (r * n + c) 0 else 0 := by
  unfold getCell createGridData
  have h1 : r < ((List.range n).map (fun row => (List.range n).map (fun col =>
      if row * n + col < seq.length
      then seq.getD (row * n + col) 0 else 0))).length := by
    simpa using hr
  rw [List.getD_eq_getElem _ [] h1, List.getElem_map, List.getElem_range]
  have h2 : c < ((List.range n).map (fun col =>
      if r * n + col < seq.length
      then seq.getD (r * n + col) 0 else 0)).length := by
    simpa using hc
  rw [List.getD_eq_getElem _ 0 h2, List.getElem_map, List.getElem_range]

/-- The property that a coordinate pair is in range and names a 0 cell. -/
def GoodEmpty (n : Nat) (g : List (List Nat)) (e : Nat × Nat) : Prop :=
  e.1 < n ∧ e.2 < n ∧ getCell g e.1 e.2 = 0

theorem scanFold_preserves (n : Nat) (g : List (List Nat)) :
    ∀ (l : List Nat), (∀ x ∈ l, x < n) → ∀ e, GoodEmpty n g e →
      GoodEmpty n g (l.foldl (fun e row =>
        match (List.range n).reverse.find?
            (fun col => getCell g row col == 0) with
        | some col => (row, col)
        | none => e) e) := by
  intro l
  induction l with
  | nil =>
    intro _ e he
    exact he
  | cons x xs ih =>
    intro hl e he
    rw [List.foldl_cons]
    apply ih (fun y hy => hl y (List.mem_cons_of_mem x hy))
    cases hfind : (List.range n).reverse.find?
        (fun col => getCell g x col == 0) with
    | none =>
      simpa [hfind] using he
    | some col =>
      simp only [hfind]
      have hcoln : col < n :=
        List.mem_range.mp (List.mem_reverse.mp (List.mem_of_find?_eq_some hfind))
      have hval : getCell g x col = 0 := by
        simpa using List.find?_some hfind
      exact ⟨hl x (List.mem_cons_self x xs), hcoln, hval⟩

theorem scanFold_establishes (n : Nat) (g : List (List Nat)) :
    ∀ (l : List Nat), (∀ x ∈ l, x < n) → ∀ (row c : Nat), row ∈ l → c < n →
      getCell g row c = 0 → ∀ e,
      GoodEmpty n g (l.foldl (fun e row =>
        match (List.range n).reverse.find?
            (fun col => getCell g row col == 0) with
        | some col => (row, col)
        | none => e) e) := by
  intro l
  induction l with
  | nil =>
    intro _ row c hmem
    cases hmem
  | cons x xs ih =>
    intro hl row c hmem hc h0 e
    rw [List.foldl_cons]
    rcases List.mem_cons.mp hmem with hx | hxs
    · subst hx
      apply scanFold_preserves n g xs
        (fun y hy => hl y (List.mem_cons_of_mem row hy))
      cases hfind : (List.range n).reverse.find?
          (fun col => getCell g row col == 0) with
      | none =>
        exfalso
        have hex : ∃ y ∈ (List.range n).reverse,
            (getCell g row y == 0) = true :=
          ⟨c, List.mem_reverse.mpr (List.mem_range.mpr hc), by simp [h0]⟩
        rw [← List.find?_isSome, hfind] at hex
        simp at hex
      | some col =>
        simp only [hfind]
        have hcoln : col < n :=
          List.mem_range.mp
            (List.mem_reverse.mp (List.mem_of_find?_eq_some hfind))
        have hval : getCell g row col = 0 := by
          simpa using List.find?_some hfind
        exact ⟨hl row (List.mem_cons_self row xs), hcoln, hval⟩
    · exact ih (fun y hy => hl y (List.mem_cons_of_mem x hy)) row c hxs hc h0 _

theorem scanEmptyPos_good (n : Nat) (g : List (List Nat)) (e0 : Nat × Nat)
    (row c : Nat) (hrow : row < n) (hc : c < n)
    (h0 : getCell g row c = 0) :
    GoodEmpty n g (scanEmptyPos n g e0) := by
  unfold scanEmptyPos
  exact scanFold_establishes n g (List.range n).reverse
    (fun x hx => List.mem_range.mp (List.mem_reverse.mp hx)) row c
    (List.mem_reverse.mpr (List.mem_range.mpr hrow)) hc h0 e0

theorem createTiles_mem (n : Nat) (g : List (List Nat)) (t : Tile)
    (ht : t ∈ createTiles n g) :
    getCell g t.currentRow t.currentCol = t.id ∧ t.id ≠ 0 ∧
      t.currentRow < n ∧ t.currentCol < n := by
  unfold createTiles at ht
  rw [List.mem_flatten] at ht
  obtain ⟨l, hl, htl⟩ := ht
  rw [List.mem_map] at hl
  obtain ⟨row, hrowmem, rfl⟩ := hl
  rw [List.mem_filterMap] at htl
  obtain ⟨col, hcolmem, hsome⟩ := htl
  by_cases h : getCell g row col ≠ 0
  · rw [if_pos h] at hsome
    cases hsome
    exact ⟨rfl, h, List.mem_range.mp hrowmem, List.mem_range.mp hcolmem⟩
  · rw [if_neg h] at hsome
    cases hsome

theorem filterMap_ite_filter {β : Type} (f : β → Nat) (l : List β) :
    l.filterMap (fun x => if f x ≠ 0 then some (f x) else none) =
      (l.map f).filter (fun v => v ≠ 0) := by
  induction l with
  | nil => rfl
  | cons x xs ih =>
    rw [List.filterMap_cons, List.map_cons, List.filter_cons]
    by_cases h : f x = 0
    · rw [if_neg (show ¬ (f x ≠ 0) from fun hh => hh h),
        if_neg (show ¬ ((decide (f x ≠ 0)) = true) by simp [h])]
      exact ih
    · rw [if_pos (show f x ≠ 0 from h),
        if_pos (show (decide (f x ≠ 0)) = true by simp [h])]
      exact congrArg (List.cons (f x)) ih

theorem createTiles_ids (n : Nat) (g : List (List Nat)) (hlen : g.length = n)
    (hrow : ∀ row ∈ g, row.length = n) :
    (createTiles n g).map Tile.id = g.flatten.filter (fun v => v ≠ 0) := by
  unfold createTiles
  rw [List.map_flatten, List.map_map]
  have hrowf : ∀ row ∈ List.range n,
      (List.map Tile.id ∘ fun row => (List.range n).filterMap
        (fun col => if getCell g row col ≠ 0
          then some (⟨getCell g row col, row, col⟩ : Tile) else none)) row =
      (g.getD row []).filter (fun v => v ≠ 0) := by
    intro row hrowmem
    show List.map Tile.id ((List.range n).filterMap _) = _
    rw [List.map_filterMap]
    have hopt : (fun col => Option.map Tile.id
        (if getCell g row col ≠ 0
          then some (⟨getCell g row col, row, col⟩ : Tile) else none)) =
        (fun col => if getCell g row col ≠ 0
          then some (getCell g row col) else none) := by
      funext col
      by_cases h : getCell g row col ≠ 0 <;> simp [h]
    rw [hopt]
    have hrl : (g.getD row []).length = n :=
      hrow _ (getD_mem_of_lt g row []
        (by rw [hlen]; exact List.mem_range.mp hrowmem))
    rw [← hrl]
    have h2 := filterMap_ite_filter (fun col => (g.getD row []).getD col 0)
      (List.range (g.getD row []).length)
    rw [show (fun col => if getCell g row col ≠ 0
        then some (getCell g row col) else none) =
        (fun col => if (g.getD row []).getD col 0 ≠ 0
          then some ((g.getD row []).getD col 0) else none) from rfl]
    rw [h2, map_getD_range]
  rw [List.map_congr_left hrowf, List.filter_flatten]
  rw [← hlen]
  exact congrArg List.flatten
    (map_getD_range_comp g [] (fun row => row.filter (fun v => v ≠ 0)))

-- ============================================================================
-- Invariant at initialization, reachability, and claims C6 - C7
-- ============================================================================

theorem boardInv_createGrid (n : Nat) (seq : List Nat) (e0 : Nat × Nat)
    (hn : 0 < n) (hlen : seq.length < n * n)
    (hnz : ∀ x ∈ seq, x ≠ 0) (hnd : seq.Nodup) :
    BoardInv n ((seq ++ List.replicate (n * n - seq.length) 0 : List Nat) :
      Multiset Nat) (createGrid e0 n seq) := by
  have hglen : (createGridData n seq).length = n := by
    unfold createGridData
    simp
  have hgrow : ∀ row ∈ createGridData n seq, row.length = n := by
    intro row hrow
    unfold createGridData at hrow
    rw [List.mem_map] at hrow
    obtain ⟨r, _, rfl⟩ := hrow
    simp
  obtain ⟨m, rfl⟩ : ∃ m, n = m + 1 := ⟨n - 1, by omega⟩
  have harith : (m + 1) * (m + 1) = m * (m + 1) + m + 1 := by ring
  have hcell0 : getCell (createGridData (m + 1) seq) m m = 0 := by
    rw [getCell_createGridData (m + 1) seq m m (by omega) (by omega)]
    rw [if_neg (by omega)]
  have hGood := scanEmptyPos_good (m + 1) (createGridData (m + 1) seq) e0 m m
    (by omega) (by omega) hcell0
  constructor
  case grid_len => exact hglen
  case row_len => exact hgrow
  case empty_row_lt => exact hGood.1
  case empty_col_lt => exact hGood.2.1
  case empty_zero => exact hGood.2.2
  case tiles_pos =>
    intro i t hti
    obtain ⟨hl, hget⟩ := List.getElem?_eq_some_iff.mp hti
    have hmem : t ∈ createTiles (m + 1) (createGridData (m + 1) seq) := by
      rw [← hget]
      exact List.getElem_mem hl
    exact (createTiles_mem _ _ t hmem).1
  case tiles_nz =>
    intro i t hti
    obtain ⟨hl, hget⟩ := List.getElem?_eq_some_iff.mp hti
    have hmem : t ∈ createTiles (m + 1) (createGridData (m + 1) seq) := by
      rw [← hget]
      exact List.getElem_mem hl
    exact (createTiles_mem _ _ t hmem).2.1
  case ids_nodup =>
    show ((createTiles (m + 1) (createGridData (m + 1) seq)).map Tile.id).Nodup
    rw [createTiles_ids _ _ hglen hgrow,
      flatten_createGridData _ _ (by omega),
      List.filter_append, List.filter_replicate]
    rw [if_neg (by simp), List.append_nil]
    rw [List.filter_eq_self.mpr (fun a ha => by simpa using hnz a ha)]
    exact hnd
  case cells_multiset =>
    show (((createGridData (m + 1) seq).flatten : List Nat) : Multiset Nat) = _
    rw [flatten_createGridData _ _ (by omega)]

/-- The reachable boards of one recipe-mode puzzle session: the initial
`createGrid` board (the module initializes `emptyPos` to `(2,2)`), closed
under `moveTile` on a tile passing `canTileMove` — exactly how both the
shuffle walk and the player path (`onTileClick`) invoke `moveTile`. -/
inductive Reachable (n : Nat) (seq : List Nat) : Board → Prop where
  | init : Reachable n seq (createGrid (2, 2) n seq)
  | step (b : Board) (i : Nat) (t : Tile) (hb : Reachable n seq b)
      (ht : b.tiles[i]? = some t)
      (hleg : canTileMove t b.emptyPos = true) :
      Reachable n seq (moveTile b i)

theorem boardInv_reachable (n : Nat) (seq : List Nat)
    (hn : 0 < n) (hlen : seq.length < n * n)
    (hnz : ∀ x ∈ seq, x ≠ 0) (hnd : seq.Nodup) (b : Board)
    (hb : Reachable n seq b) :
    BoardInv n ((seq ++ List.replicate (n * n - seq.length) 0 : List Nat) :
      Multiset Nat) b := by
  induction hb with
  | init => exact boardInv_createGrid n seq (2, 2) hn hlen hnz hnd
  | step b i t hb ht hleg ih => exact boardInv_moveTile ih i

/-- Counterexample to claim C6 as stated: the initial board of the default
recipe `leafy_stack` is reachable and its cells contain five 0-valued
entries, not exactly one (the 4-entry target sequence leaves 9 - 4 = 5
cells empty). -/
theorem C6_counterexample :
    ¬ (∀ b : Board, Reachable 3 [1, 2, 3, 8] b →
        b.gridData.flatten.count 0 = 1) := by
  intro h
  have hc := h (createGrid (2, 2) 3 [1, 2, 3, 8]) Reachable.init
  exact absurd hc (by decide)

/-- Claim C6 (amended): in every reachable state of a recipe-mode session
(recipe sequence nonzero-valued, duplicate-free, shorter than the board),
the cell at `emptyPosition` holds 0 and the number of 0-valued cells is the
constant `gridSize^2 - targetSequence.length` — which is 1 only when the
sequence fills all but one cell (5, not 1, for the default `leafy_stack`). -/
theorem C6_empty_cell_invariant (n : Nat) (seq : List Nat) (b : Board)
    (hn : 0 < n) (hlen : seq.length < n * n)
    (hnz : ∀ x ∈ seq, x ≠ 0) (hnd : seq.Nodup)
    (hb : Reachable n seq b) :
    getCell b.gridData b.emptyPos.1 b.emptyPos.2 = 0 ∧
    b.gridData.flatten.count 0 = n * n - seq.length := by
  have inv := boardInv_reachable n seq hn hlen hnz hnd b hb
  refine ⟨inv.empty_zero, ?_⟩
  have hcnt := congrArg (Multiset.count 0) inv.cells_multiset
  rw [Multiset.coe_count, Multiset.coe_count] at hcnt
  rw [hcnt, List.count_append, List.count_replicate]
  have hseq : seq.count 0 = 0 :=
    List.count_eq_zero.mpr (fun hmem => hnz 0 hmem rfl)
  simp [hseq]

/-- Witness for C6 (amended) at the default `leafy_stack` session's initial
board: the empty cell holds 0 and there are 9 - 4 = 5 zeros. -/
theorem C6_empty_cell_invariant_witness :
    getCell leafyInitBoard.gridData leafyInitBoard.emptyPos.1
        leafyInitBoard.emptyPos.2 = 0 ∧
    leafyInitBoard.gridData.flatten.count 0 = 3 * 3 - 4 :=
  C6_empty_cell_invariant 3 [1, 2, 3, 8] leafyInitBoard (by decide) (by decide)
    (by decide) (by decide) Reachable.init

/-- Claim C7: in every reachable state of a recipe-mode session the multiset
of nonzero cell values equals the multiset of nonzero values of the active
recipe's `targetSequence`; in particular `moveTile` preserves that multiset
on every legal move. -/
theorem C7_nonzero_multiset_invariant (n : Nat) (seq : List Nat) (b : Board)
    (hn : 0 < n) (hlen : seq.length < n * n)
    (hnz : ∀ x ∈ seq, x ≠ 0) (hnd : seq.Nodup)
    (hb : Reachable n seq b) :
    ((b.gridData.flatten.filter (fun v => v ≠ 0) : List Nat) : Multiset Nat) =
      ((seq.filter (fun v => v ≠ 0) : List Nat) : Multiset Nat) ∧
    (∀ (i : Nat) (t : Tile), b.tiles[i]? = some t →
      canTileMove t b.emptyPos = true →
      (((moveTile b i).gridData.flatten.filter (fun v => v ≠ 0) : List Nat) :
          Multiset Nat) =
        ((b.gridData.flatten.filter (fun v => v ≠ 0) : List Nat) :
          Multiset Nat)) := by
  have main : ∀ (b' : Board), Reachable n seq b' →
      ((b'.gridData.flatten.filter (fun v => v ≠ 0) : List Nat) :
          Multiset Nat) =
        ((seq.filter (fun v => v ≠ 0) : List Nat) : Multiset Nat) := by
    intro b' hb'
    have inv := boardInv_reachable n seq hn hlen hnz hnd b' hb'
    have hperm : b'.gridData.flatten.Perm
        (seq ++ List.replicate (n * n - seq.length) 0) :=
      Multiset.coe_eq_coe.mp inv.cells_multiset
    have hfperm := hperm.filter (fun v => decide (v ≠ 0))
    rw [Multiset.coe_eq_coe.mpr hfperm]
    rw [List.filter_append, List.filter_replicate, if_neg (by simp),
      List.append_nil]
  refine ⟨main b hb, ?_⟩
  intro i t ht hleg
  rw [main (moveTile b i) (Reachable.step b i t hb ht hleg), main b hb]

/-- Witness for C7 at the default `leafy_stack` session: at the initial
board the nonzero cell multiset is that of `[1,2,3,8]`, and moving tile
id 3 (the only legal move, tiles index 2) preserves it. -/
theorem C7_nonzero_multiset_invariant_witness :
    ((leafyInitBoard.gridData.flatten.filter (fun v => v ≠ 0) : List Nat) :
        Multiset Nat) =
      ((([1, 2, 3, 8] : List Nat).filter (fun v => v ≠ 0) : List Nat) :
        Multiset Nat) ∧
    (((moveTile leafyInitBoard 2).gridData.flatten.filter (fun v => v ≠ 0) :
        List Nat) : Multiset Nat) =
      ((leafyInitBoard.gridData.flatten.filter (fun v => v ≠ 0) : List Nat) :
        Multiset Nat) :=
  ⟨(C7_nonzero_multiset_invariant 3 [1, 2, 3, 8] leafyInitBoard (by decide)
      (by decide) (by decide) (by decide) Reachable.init).1,
   (C7_nonzero_multiset_invariant 3 [1, 2, 3, 8] leafyInitBoard (by decide)
      (by decide) (by decide) (by decide) Reachable.init).2 2 ⟨3, 0, 2⟩
      (by decide) (by decide)⟩

-- ============================================================================
-- ShuffleSystem.performAnimatedShuffle: candidate selection and claim C8
-- ============================================================================

/-- The candidate set of one step of the shuffle's legal-move walk
(`performAnimatedShuffle`): `movableTiles = tiles.filter(canTileMove)`;
`if (lastMovedTile && movableTiles.length > 1)` the tile with the
previously moved id is filtered out. -/
def shuffleCandidates (tiles : List Tile) (emptyPos : Nat × Nat)
    (lastMovedTile : Option Nat) : List Tile :=
  let movableTiles := tiles.filter (fun tile => canTileMove tile emptyPos)
  match lastMovedTile with
  | some lastId =>
    if 1 < movableTiles.length
    then movableTiles.filter (fun tile => tile.id ≠ lastId)
    else movableTiles
  | none => movableTiles

/-- One step of the shuffle walk.  The JS picks
`movableTiles[Math.floor(Math.random() * length)]`; the random draw is
modeled nondeterministically as any in-range position `k` of the candidate
list.  The chosen tile is moved with the shared `moveTile` primitive and
recorded as `lastMovedTile` for the next step. -/
inductive ShuffleStep : Board × Option Nat → Board × Option Nat → Prop where
  | mk (b : Board) (last : Option Nat) (k i : Nat) (t : Tile)
      (hk : (shuffleCandidates b.tiles b.emptyPos last)[k]? = some t)
      (hi : b.tiles[i]? = some t) :
      ShuffleStep (b, last) (moveTile b i, some t.id)

/-- Claim C8: consecutive shuffle steps never move the same tile when more
than one legal move is available — whenever the step after one that moved
`prevId` is chosen from a state with more than one movable tile, the
previously moved tile id is excluded from the random choice, so the tile
moved next has a different id. -/
theorem C8_no_backtrack (b b' : Board) (prevId nextId : Nat)
    (hstep : ShuffleStep (b, some prevId) (b', some nextId))
    (hmany : 1 < (b.tiles.filter
      (fun tile => canTileMove tile b.emptyPos)).length) :
    nextId ≠ prevId := by
  cases hstep with
  | mk _ _ k i t hk hi =>
    intro heq
    simp only [shuffleCandidates] at hk
    rw [if_pos hmany] at hk
    obtain ⟨hlt, hget⟩ := List.getElem?_eq_some_iff.mp hk
    have hmem : t ∈ (b.tiles.filter
        (fun tile => canTileMove tile b.emptyPos)).filter
        (fun tile => tile.id ≠ prevId) := by
      rw [← hget]
      exact List.getElem_mem hlt
    have := (List.mem_filter.mp hmem).2
    rw [heq] at this
    simp at this

/-- A mid-shuffle `leafy_stack` state with two movable tiles (ids 2 and 3,
empty cell at (0,2)), used to witness the no-backtrack exclusion. -/
def shuffleDemoBoard : Board :=
  { gridData := [[1, 2, 0], [8, 0, 3], [0, 0, 0]]
    tiles := [⟨1, 0, 0⟩, ⟨2, 0, 1⟩, ⟨8, 1, 0⟩, ⟨3, 1, 2⟩]
    emptyPos := (0, 2) }

/-- Witness for C8: on `shuffleDemoBoard` (two movable tiles, last moved
id 3) the only candidate is tile id 2, and the theorem yields 2 ≠ 3. -/
theorem C8_no_backtrack_witness :
    1 < (shuffleDemoBoard.tiles.filter
      (fun tile => canTileMove tile shuffleDemoBoard.emptyPos)).length ∧
    (2 : Nat) ≠ 3 :=
  ⟨by decide,
   C8_no_backtrack shuffleDemoBoard (moveTile shuffleDemoBoard 1) 3 2
     (ShuffleStep.mk shuffleDemoBoard (some 3) 0 1 ⟨2, 0, 1⟩ (by decide)
       (by decide))
     (by decide)⟩

-- ============================================================================
-- ShuffleSystem.performHybridShuffle (decorative pass) and claim C9
-- ============================================================================

/-- A tile record including its render-only container coordinates `(x, y)`
(the Phaser container position the tweens animate). -/
structure TileR where
  id : Nat
  currentRow : Nat
  currentCol : Nat
  x : Nat
  y : Nat
deriving DecidableEq

/-- The container x for a logical column:
`GRID_OFFSET_X + col * (TILE_SIZE + TILE_SPACING) + TILE_SIZE / 2`. -/
def tileScreenX (col : Nat) : Nat :=
  GRID_OFFSET_X + col * (TILE_SIZE + TILE_SPACING) + TILE_SIZE / 2

/-- The container y for a logical row. -/
def tileScreenY (row : Nat) : Nat :=
  GRID_OFFSET_Y + row * (TILE_SIZE + TILE_SPACING) + TILE_SIZE / 2

/-- Board state with render coordinates, for the hybrid-shuffle claim. -/
structure BoardR where
  gridData : List (List Nat)
  tiles : List TileR
  emptyPos : Nat × Nat
deriving DecidableEq

/-- The without-replacement selection loop of `performHybridShuffle`:
`for (i = 0; i < numTilesToSwap && availableTiles.length > 0; i++)` pick
`availableTiles[Math.floor(Math.random() * length)]` and splice it out.
`avail` holds indices into the tiles array (the JS copies references);
`ks` supplies the random draws, reduced mod the current length exactly as
`Math.floor(Math.random() * length)` is always in range. -/
def pickIdxLoop : Nat → List Nat → List Nat → List Nat
  | 0, _, _ => []
  | Nat.succ num, avail, ks =>
    if avail.length = 0 then []
    else
      match avail[ks.headD 0 % avail.length]? with
      | some idx => idx :: pickIdxLoop num (avail.eraseIdx (ks.headD 0 % avail.length)) ks.tail
      | none => []

/-- The 2-cycle swap / 3-cycle rotation of the selected tiles' target
positions (`[targetPositions[0], targetPositions[1]] = [p1, p0]`, resp.
the 3-rotation). -/
def cyclePositions (ps : List (Nat × Nat)) : List (Nat × Nat) :=
  match ps with
  | [p1, p2] => [p2, p1]
  | [p1, p2, p3] => [p2, p3, p1]
  | other => other

/-- Apply a per-tile update at one index of the tiles array. -/
def updateTileAt (tiles : List TileR) (i : Nat) (f : TileR → TileR) :
    List TileR :=
  match tiles[i]? with
  | some t => tiles.set i (f t)
  | none => tiles

/-- The churn phase of one hybrid round: tween each selected tile's
container to its cycled target position (render coordinates only). -/
def hybridChurn (tiles : List TileR) (picked : List Nat)
    (targetPositions : List (Nat × Nat)) : List TileR :=
  (picked.zip targetPositions).foldl
    (fun ts pk => updateTileAt ts pk.1
      (fun t => { t with x := pk.2.1, y := pk.2.2 })) tiles

/-- The `onComplete` snap-back of one hybrid round: tween each selected
tile's container back to the `realX`/`realY` computed from its logical
`currentCol`/`currentRow`. -/
def hybridSnapBack (tiles : List TileR) (picked : List Nat) : List TileR :=
  picked.foldl
    (fun ts i => updateTileAt ts i
      (fun t => { t with x := tileScreenX t.currentCol,
                         y := tileScreenY t.currentRow })) tiles

/-- One round of `performHybridShuffle`: pick 2 (70%) or 3 (30%) distinct
tiles (`coin` models the probability draw, `ks` the index draws), cycle
their container positions, then snap every animated tile back to the
position of its logical cell.  Only the `tiles` render fields change. -/
def hybridRound (b : BoardR) (coin : Bool) (ks : List Nat) : BoardR :=
  let numTilesToSwap := if coin then 2 else 3
  let picked := pickIdxLoop numTilesToSwap (List.range b.tiles.length) ks
  let originalPositions := picked.map (fun i =>
    match b.tiles[i]? with
    | some t => (t.x, t.y)
    | none => (0, 0))
  { b with tiles :=
      hybridSnapBack (hybridChurn b.tiles picked
        (cyclePositions originalPositions)) picked }

/-- The full decorative pass: `HYBRID_SHUFFLE_COUNT` (default 6) rounds,
modeled over an arbitrary list of per-round random draws. -/
def performHybridShuffle (b : BoardR) (rounds : List (Bool × List Nat)) :
    BoardR :=
  rounds.foldl (fun acc r => hybridRound acc r.1 r.2) b

/-- The logical content of a tile record: id and grid position, without
the render coordinates. -/
def tileLogical (t : TileR) : Nat × Nat × Nat :=
  (t.id, t.currentRow, t.currentCol)

theorem map_tileLogical_updateTileAt (ts : List TileR) (i : Nat)
    (f : TileR → TileR) (hf : ∀ t, tileLogical (f t) = tileLogical t) :
    (updateTileAt ts i f).map tileLogical = ts.map tileLogical := by
  unfold updateTileAt
  cases hti : ts[i]? with
  | none => rfl
  | some t =>
    rw [List.map_set]
    apply set_getElem_self
    rw [List.getElem?_map, hti]
    simp [hf t]

theorem map_tileLogical_hybridChurn (l : List (Nat × (Nat × Nat))) :
    ∀ ts : List TileR,
      (l.foldl (fun ts pk => updateTileAt ts pk.1
        (fun t => { t with x := pk.2.1, y := pk.2.2 })) ts).map tileLogical =
      ts.map tileLogical := by
  induction l with
  | nil => intro ts; rfl
  | cons p l ih =>
    intro ts
    rw [List.foldl_cons, ih]
    exact map_tileLogical_updateTileAt ts p.1 _ (fun t => rfl)

theorem map_tileLogical_hybridSnapBack (l : List Nat) :
    ∀ ts : List TileR,
      (l.foldl (fun ts i => updateTileAt ts i
        (fun t => { t with x := tileScreenX t.currentCol,
                           y := tileScreenY t.currentRow })) ts).map tileLogical =
      ts.map tileLogical := by
  induction l with
  | nil => intro ts; rfl
  | cons p l ih =>
    intro ts
    rw [List.foldl_cons, ih]
    exact map_tileLogical_updateTileAt ts p _ (fun t => rfl)

/-- Claim C9: the decorative (hybrid) shuffle pass never changes the
logical board state — `gridData`, `emptyPos`, and every tile's
`(id, currentRow, currentCol)` are identical before and after the entire
pass, for every outcome of the random draws; only the transient render
coordinates are touched. -/
theorem C9_hybrid_pass_preserves_logical_state (b : BoardR)
    (rounds : List (Bool × List Nat)) :
    (performHybridShuffle b rounds).gridData = b.gridData ∧
    (performHybridShuffle b rounds).emptyPos = b.emptyPos ∧
    (performHybridShuffle b rounds).tiles.map tileLogical =
      b.tiles.map tileLogical := by
  unfold performHybridShuffle
  induction rounds generalizing b with
  | nil => exact ⟨rfl, rfl, rfl⟩
  | cons r rs ih =>
    rw [List.foldl_cons]
    have hr := ih (hybridRound b r.1 r.2)
    have hround : (hybridRound b r.1 r.2).gridData = b.gridData ∧
        (hybridRound b r.1 r.2).emptyPos = b.emptyPos ∧
        (hybridRound b r.1 r.2).tiles.map tileLogical =
          b.tiles.map tileLogical := by
      refine ⟨rfl, rfl, ?_⟩
      show (hybridSnapBack (hybridChurn b.tiles _ _) _).map tileLogical =
        b.tiles.map tileLogical
      rw [show ∀ (ts : List TileR) (p : List Nat),
          hybridSnapBack ts p = p.foldl (fun ts i => updateTileAt ts i
            (fun t => { t with x := tileScreenX t.currentCol,
                               y := tileScreenY t.currentRow })) ts
          from fun _ _ => rfl]
      rw [map_tileLogical_hybridSnapBack]
      exact map_tileLogical_hybridChurn _ b.tiles
    exact ⟨hr.1.trans hround.1, (hr.2.1).trans hround.2.1,
      (hr.2.2).trans hround.2.2⟩

-- ============================================================================
-- GameState.petStats, event hooks onPuzzleComplete / onPuzzleFail, claim C10
-- ============================================================================

/-- `GameState.petStats`: the six stat fields the object holds (there is no
`health` field — `health` buff keys find `petStats['health']` undefined). -/
structure PetStats where
  hp : Int
  maxHp : Int
  hunger : Int
  attack : Int
  defense : Int
  stamina : Int
deriving DecidableEq

/-- `GameState.petStats[stat]` as an optional read: `none` models the JS
`undefined` for keys that are not fields of the object. -/
def statGet (s : PetStats) (stat : String) : Option Int :=
  if stat = "hp" then some s.hp
  else if stat = "maxHp" then some s.maxHp
  else if stat = "hunger" then some s.hunger
  else if stat = "attack" then some s.attack
  else if stat = "defense" then some s.defense
  else if stat = "stamina" then some s.stamina
  else none

/-- `GameState.petStats[stat] = v` (no-op for unknown keys, which the code
never reaches because it checks for `undefined` first). -/
def statSet (s : PetStats) (stat : String) (v : Int) : PetStats :=
  if stat = "hp" then { s with hp := v }
  else if stat = "maxHp" then { s with maxHp := v }
  else if stat = "hunger" then { s with hunger := v }
  else if stat = "attack" then { s with attack := v }
  else if stat = "defense" then { s with defense := v }
  else if stat = "stamina" then { s with stamina := v }
  else s

/-- One iteration of the buff loop in `onPuzzleComplete`: skip the key if
`petStats[stat] === undefined`; otherwise add the delta, and for keys
`'hp'`/`'health'` cap `hp` at `maxHp`. -/
def applyBuffStat (s : PetStats) (stat : String) (delta : Int) : PetStats :=
  match statGet s stat with
  | none => s
  | some v =>
    let s1 := statSet s stat (v + delta)
    if stat = "hp" ∨ stat = "health"
    then { s1 with hp := min s1.hp s1.maxHp }
    else s1

/-- The `petStats` effect of `onPuzzleComplete`: fold the recipe's buff
entries (JS object key order) through the buff loop. -/
def onPuzzleCompleteStats (s : PetStats) (buff : List (String × Int)) :
    PetStats :=
  buff.foldl (fun acc kv => applyBuffStat acc kv.1 kv.2) s

/-- The `petStats` effect of `onPuzzleFail`:
`petStats.hp = Math.max(0, petStats.hp - 10)`. -/
def onPuzzleFailStats (s : PetStats) : PetStats :=
  { s with hp := max 0 (s.hp - 10) }

/-- A recipe of the RECIPES catalog. -/
structure Recipe where
  id : String
  name : String
  sequence : List Nat
  buff : List (String × Int)
  difficulty : String
  gridSize : Nat
  optimalMoves : Nat
  maxMoves : Nat
deriving DecidableEq

/-- The RECIPES catalog. -/
def RECIPES : List Recipe :=
  [⟨"classic_stack", "Classic Stack", [1, 2, 3, 4, 5, 6, 7, 8],
      [("health", 20), ("defense", 5)], "Medium", 3, 30, 60⟩,
   ⟨"leafy_stack", "Leafy Stack", [1, 2, 3, 8],
      [("defense", 10), ("stamina", 15)], "Easy", 3, 15, 40⟩,
   ⟨"cheesy_beast", "Cheesy Beast", [1, 4, 5, 8],
      [("attack", 15), ("health", 10)], "Easy", 3, 15, 40⟩,
   ⟨"protein_power", "Protein Power", [1, 5, 4, 8],
      [("attack", 20), ("defense", 5)], "Easy", 3, 15, 40⟩,
   ⟨"garden_delight", "Garden Delight", [1, 2, 6, 7, 8],
      [("health", 15), ("stamina", 20)], "Medium", 3, 20, 50⟩,
   ⟨"deluxe_combo", "Deluxe Combo", [1, 2, 3, 4, 5, 6, 7, 8],
      [("health", 30), ("attack", 10), ("defense", 10), ("stamina", 15)],
      "Hard", 3, 35, 70⟩]

/-- Claim C10 (implicit): `petStats.hp` stays within `[0, maxHp]` across
the events the program fires.  `onPuzzleFail` subtracts 10 but clamps at 0;
`onPuzzleComplete` with any catalog recipe preserves the bounds (its
`health` buff keys have no `petStats` field and are skipped); an `'hp'`
buff (key present) is capped at `maxHp`; a `'health'` buff is a no-op. -/
theorem C10_hp_within_bounds :
    (∀ s : PetStats, 0 ≤ s.hp → s.hp ≤ s.maxHp →
      0 ≤ (onPuzzleFailStats s).hp ∧
      (onPuzzleFailStats s).hp ≤ (onPuzzleFailStats s).maxHp) ∧
    (∀ r ∈ RECIPES, ∀ s : PetStats, 0 ≤ s.hp → s.hp ≤ s.maxHp →
      0 ≤ (onPuzzleCompleteStats s r.buff).hp ∧
      (onPuzzleCompleteStats s r.buff).hp ≤
        (onPuzzleCompleteStats s r.buff).maxHp) ∧
    (∀ (s : PetStats) (d : Int),
      (applyBuffStat s "hp" d).hp ≤ (applyBuffStat s "hp" d).maxHp) ∧
    (∀ (s : PetStats) (d : Int), applyBuffStat s "health" d = s) := by
  refine ⟨?_, ?_, ?_, ?_⟩
  · intro s h0 hm
    refine ⟨le_max_left 0 _, ?_⟩
    show max 0 (s.hp - 10) ≤ s.maxHp
    omega
  · intro r hr s h0 hm
    have hfix : (onPuzzleCompleteStats s r.buff).hp = s.hp ∧
        (onPuzzleCompleteStats s r.buff).maxHp = s.maxHp := by
      fin_cases hr <;>
        simp [onPuzzleCompleteStats, applyBuffStat, statGet, statSet]
    rw [hfix.1, hfix.2]
    exact ⟨h0, hm⟩
  · intro s d
    simp [applyBuffStat, statGet, statSet]
  · intro s d
    rfl

/-- Witness for C10: the initial `petStats` (hp 100 of maxHp 100) stays in
bounds after a failure and after completing `leafy_stack`, and a `health`
buff entry is skipped without effect. -/
theorem C10_hp_within_bounds_witness :
    ((0 : Int) ≤ 100 ∧ (100 : Int) ≤ 100) ∧
    (0 ≤ (onPuzzleFailStats ⟨100, 100, 100, 10, 10, 100⟩).hp ∧
      (onPuzzleFailStats ⟨100, 100, 100, 10, 10, 100⟩).hp ≤
        (onPuzzleFailStats ⟨100, 100, 100, 10, 10, 100⟩).maxHp) ∧
    (0 ≤ (onPuzzleCompleteStats ⟨100, 100, 100, 10, 10, 100⟩
        [("defense", 10), ("stamina", 15)]).hp ∧
      (onPuzzleCompleteStats ⟨100, 100, 100, 10, 10, 100⟩
        [("defense", 10), ("stamina", 15)]).hp ≤
      (onPuzzleCompleteStats ⟨100, 100, 100, 10, 10, 100⟩
        [("defense", 10), ("stamina", 15)]).maxHp) ∧
    applyBuffStat ⟨100, 100, 100, 10, 10, 100⟩ "health" 20 =
      ⟨100, 100, 100, 10, 10, 100⟩ :=
  ⟨⟨by decide, by decide⟩,
   C10_hp_within_bounds.1 ⟨100, 100, 100, 10, 10, 100⟩ (by decide) (by decide),
   C10_hp_within_bounds.2.1 ⟨"leafy_stack", "Leafy Stack", [1, 2, 3, 8],
      [("defense", 10), ("stamina", 15)], "Easy", 3, 15, 40⟩
     (by simp [RECIPES]) ⟨100, 100, 100, 10, 10, 100⟩ (by decide) (by decide),
   C10_hp_within_bounds.2.2.2 ⟨100, 100, 100, 10, 10, 100⟩ 20⟩
